import Mathlib

/-!
Verification of the blunt video-streaming library (blunt.py and the
video_crop.py orchestrator script) against its natural-language
specification.

The embedding is shallow: Python floats are modelled by exact rationals
(ℚ), machine integers by ℤ/ℕ, the bounded FIFO queues by lists, and the
two worker threads (the source reader and the sink writer) by explicit
state machines / recursive functions over the thread-visible state.
Names follow the Python source where Lean allows it.
-/

namespace Blunt

/-- Python int() truncates toward zero; on the nonnegative values used by
the timestamp code this is the floor. -/
def pyInt (q : ℚ) : ℤ := if 0 ≤ q then ⌊q⌋ else ⌈q⌉

/-- TimeStamp (blunt.py lines 275-313): hours, minutes and seconds are
three redundant representations of the same instant, all stored as
Python floats (here ℚ). -/
structure TimeStamp where
  hours : ℚ
  minutes : ℚ
  seconds : ℚ
  deriving Repr, DecidableEq

/-- TimeStamp.__init__ (lines 290-293) after the text has been split on
":" and each field parsed as a float: given the three parsed values h, m,
s it stores h + m/60 + s/3600, h*60 + m + s/60 and h*3600 + m*60 + s. -/
def timeStamp_of (h m s : ℚ) : TimeStamp :=
  { hours := h + m / 60 + s / 3600
    minutes := h * 60 + m + s / 60
    seconds := h * 3600 + m * 60 + s }

/-- VideoTime (lines 315-348): a TimeStamp plus a frame rate and the
derived frame number.  frame_number is stored as a ℚ because Python is
dynamically typed: VideoTime.__init__ stores the int
int(seconds*fps) + 1, while frame_videotime (line 388) overwrites the
field with the float frame count. -/
structure VideoTime extends TimeStamp where
  fps : ℚ
  frame_number : ℚ
  deriving Repr, DecidableEq

/-- VideoTime.__init__ (lines 320-328) on parsed fields h, m, s:
frame_number = int(seconds * fps) + 1. -/
def videoTime_of (h m s fps : ℚ) : VideoTime :=
  let t := timeStamp_of h m s
  { t with fps := fps, frame_number := (pyInt (t.seconds * fps) : ℚ) + 1 }

/-- frame_videotime (lines 378-389): builds VideoTime("0:0:0", fps) and
then overwrites seconds = frame_number / fps, minutes = seconds / 60,
hours = minutes / 60 and frame_number = the given frame number. -/
def frame_videotime (frame_number fps : ℚ) : VideoTime :=
  let seconds := frame_number / fps
  let minutes := seconds / 60
  let hours := minutes / 60
  { hours := hours, minutes := minutes, seconds := seconds,
    fps := fps, frame_number := frame_number }

/-- The frame-index formula of VideoTime.__init__ (line 328) applied to a
timestamp's seconds value: int(seconds * fps) + 1.  This is the
"to_frame_time(ts, fps).frame_index" operation of the spec. -/
def videoTime_frame_index (seconds fps : ℚ) : ℤ :=
  pyInt (seconds * fps) + 1

/-- VideoStream.set_end (lines 104-108): with no timestamp the end of the
window is materialised as frame_videotime(length, fps); with a timestamp
(given here as its three parsed fields) it is VideoTime(timestamp, fps).
The stored attribute is Option-typed because VideoStream.after tests
"self.end is not None". -/
def videoStream_set_end (length fps : ℚ) (timestamp : Option (ℚ × ℚ × ℚ)) :
    Option VideoTime :=
  match timestamp with
  | none => some (frame_videotime length fps)
  | some (h, m, s) => some (videoTime_of h m s fps)

/-- The part of a VideoStream's state read by the windowing predicates
before/after/in_range (lines 129-137): the reader's cap position, the
beginning VideoTime and the (Option-typed) end VideoTime. -/
structure VideoStreamWindow where
  cap_position : ℚ
  beginning : VideoTime
  ending : Option VideoTime
  deriving Repr, DecidableEq

/-- VideoStream.before (lines 129-130): cap_position < beginning.frame_number. -/
def VideoStreamWindow.before (s : VideoStreamWindow) : Bool :=
  s.cap_position < s.beginning.frame_number

/-- VideoStream.after (lines 132-134): end is not None and
cap_position >= end.frame_number. -/
def VideoStreamWindow.after (s : VideoStreamWindow) : Bool :=
  match s.ending with
  | none => false
  | some e => e.frame_number ≤ s.cap_position

/-- VideoStream.in_range (lines 136-137): not (before() and after()). -/
def VideoStreamWindow.in_range (s : VideoStreamWindow) : Bool :=
  !(s.before && s.after)

/-- Capacity of every bounded queue in blunt.py: Queue(maxsize=128). -/
def queueCapacity : ℕ := 128

/-- Thread-visible state of a VideoWriter (lines 192-241).  Frames are
opaque (any type α).  queue models the bounded FIFO self.Q; written is
the ordered list of frames passed to the encode handle self.vw.write (so
frame_number = written.length); enqueued is a ghost record of every
frame ever accepted by write(); stopped is the Event; alive is
self.t.is_alive(); released records that self.vw.release() ran. -/
structure VideoWriterState (α : Type) where
  queue : List α
  written : List α
  enqueued : List α
  stopped : Bool
  alive : Bool
  released : Bool

/-- VideoWriter state right after __init__ and start(): empty queue,
nothing written, worker thread alive, no flags set. -/
def videoWriter_started (α : Type) : VideoWriterState α :=
  { queue := [], written := [], enqueued := [], stopped := false,
    alive := true, released := false }

/-- Interleaved small-step semantics of a running VideoWriter:
write (lines 224-229) appends to the queue while the worker thread is
alive and the queue is not full; encode is one worker iteration of
either loop (lines 232-240): pop the queue head, count it, pass it to
the encode handle; stop (line 221) sets the stopped event; finish
(lines 237-241) is the worker exiting: only once stopped is set and the
drain loop has emptied the queue does it release the encode handle and
die. -/
inductive VideoWriterStep (α : Type) :
    VideoWriterState α → VideoWriterState α → Prop
  | write (s : VideoWriterState α) (f : α)
      (halive : s.alive = true) (hroom : s.queue.length < queueCapacity) :
      VideoWriterStep α s
        { s with queue := s.queue ++ [f], enqueued := s.enqueued ++ [f] }
  | encode (s : VideoWriterState α) (f : α) (rest : List α)
      (hq : s.queue = f :: rest) (hrun : s.released = false) :
      VideoWriterStep α s
        { s with queue := rest, written := s.written ++ [f] }
  | stop (s : VideoWriterState α) :
      VideoWriterStep α s { s with stopped := true }
  | finish (s : VideoWriterState α)
      (hstop : s.stopped = true) (hempty : s.queue = []) :
      VideoWriterStep α s { s with released := true, alive := false }

/-- Reachability of a VideoWriter state from the started state. -/
def VideoWriterReach (α : Type) (s : VideoWriterState α) : Prop :=
  Relation.ReflTransGen (VideoWriterStep α) (videoWriter_started α) s

/-- Result of one call to VideoWriter.write (lines 224-229): if the
worker thread is alive the frame is enqueued, after busy-waiting while
the queue is full; if the worker has exited, IOError("The writer is not
ready") is raised. -/
inductive WriteOutcome (α : Type) where
  | enq (queue : List α)
  | blockedFull
  | notReady
  deriving Repr, DecidableEq

/-- VideoWriter.write (lines 224-229) as a function of the thread-visible
state: alive is self.t.is_alive(), queue is self.Q. -/
def videoWriter_write (alive : Bool) (queue : List α) (f : α) :
    WriteOutcome α :=
  if alive then
    if queueCapacity ≤ queue.length then WriteOutcome.blockedFull
    else WriteOutcome.enq (queue ++ [f])
  else WriteOutcome.notReady

/-- Thread-visible state of a VideoStream as seen by read (lines
120-127): the queue self.Q, the reader thread's liveness, the stopped
event and the count of frames already yielded. -/
structure VideoStreamReadState (α : Type) where
  queue : List α
  alive : Bool
  stopped : Bool
  frame_number : ℕ

/-- Result of one call to VideoStream.read: a frame together with the
updated state, EndOfStream (Python None), or a re-check of the busy-wait
loop (read blocks while the queue is empty and the worker is alive and
not stopped). -/
inductive ReadOutcome (α : Type) where
  | frame (f : α) (s : VideoStreamReadState α)
  | endOfStream
  | blocked

/-- VideoStream.read (lines 120-127): while the queue is empty, return
None if the reader thread is dead, return None if the stopped event is
set, otherwise keep polling; once the queue is nonempty, count and
return the next frame. -/
def videoStream_read (s : VideoStreamReadState α) : ReadOutcome α :=
  match s.queue with
  | [] =>
      if s.alive = false then ReadOutcome.endOfStream
      else if s.stopped = true then ReadOutcome.endOfStream
      else ReadOutcome.blocked
  | f :: rest =>
      ReadOutcome.frame f
        { s with queue := rest, frame_number := s.frame_number + 1 }

/-- A source is exhausted when the worker has stopped (the stopped event
is set or the thread has died) and the queue has been drained. -/
def videoStream_exhausted (s : VideoStreamReadState α) : Prop :=
  s.queue = [] ∧ (s.alive = false ∨ s.stopped = true)

/-- Outcome of the (n+1)-th consecutive call to read on an otherwise
idle source.  A frame return hands back the mutated state; a None
return leaves the object untouched (read returns before the
frame_number update, line 126), so the next call sees the same state;
a blocked poll loop stays blocked while nothing else changes. -/
def videoStream_readN (s : VideoStreamReadState α) : ℕ → ReadOutcome α
  | 0 => videoStream_read s
  | n + 1 =>
      match videoStream_read s with
      | ReadOutcome.frame _ s2 => videoStream_readN s2 n
      | ReadOutcome.endOfStream => videoStream_readN s n
      | ReadOutcome.blocked => ReadOutcome.blocked

/-- One run of the VideoStream.reader worker loop (lines 139-176) with
the end of the window materialised at frame number endFn (see
videoStream_set_end) and the decode handle modelled faithfully to the
OpenCV capture: CAP_PROP_POS_FRAMES is the 0-based index of the next
frame to grab, camera.get(1) returns it, and each successful grab
advances it by one.  Arguments: b is beginning.frame_number (the handle
was seeked there by set_beginning, lines 101-102, and cap_position was
initialised to it, line 72); cp is the stale cap_position checked at
line 144; camPos is the handle position.  Returns the handle positions
of the frames put into the queue, in order.  Queue backpressure (line
141) only delays puts, it never changes which frames are put, so it is
elided; the grab-retry loop (lines 161-167) is not reached because the
loop exits before camPos reaches endFn, and with end = None endFn is the
frame count, so every grab below it succeeds. -/
def videoStream_reader_go (endFn b : ℕ) (cp camPos : ℕ) : List ℕ :=
  if endFn ≤ cp then []
  else
    if _h2 : endFn ≤ camPos then []
    else
      (if camPos < b then [] else [camPos]) ++
        videoStream_reader_go endFn b camPos (camPos + 1)
termination_by endFn - camPos
decreasing_by omega

/-- The full reader run: cap_position and the handle both start at
beginning.frame_number. -/
def videoStream_reader (b endFn : ℕ) : List ℕ :=
  videoStream_reader_go endFn b b b

/-- A decoded frame as a numpy-style 2-D pixel buffer. -/
structure PyFrame where
  rows : ℕ
  cols : ℕ
  px : ℕ → ℕ → ℤ

/-- Python slicing frame[y0:y1, x0:x1] on a rows × cols buffer with
nonnegative bounds: each axis keeps indices from min(start, size) to
min(stop, size), silently clamping out-of-range bounds (never an
error). -/
def pySlice2d (f : PyFrame) (y0 y1 x0 x1 : ℕ) : PyFrame :=
  { rows := min y1 f.rows - min y0 f.rows
    cols := min x1 f.cols - min x0 f.cols
    px := fun i j => f.px (min y0 f.rows + i) (min x0 f.cols + j) }

/-- Construction-time attributes of a VideoCropper (lines 256-265).
VideoCropper.__init__ calls VideoWriter.__init__ with the rectangle's w
and h as output dimensions, stores x and y, and copies w, h back from
self.dimension.  It performs no validation of any kind. -/
structure VideoCropper where
  fname : String
  fourcc : String
  dimension : ℕ × ℕ
  fps : ℚ
  color : Bool
  x : ℕ
  y : ℕ
  w : ℕ
  h : ℕ
  deriving Repr, DecidableEq

/-- VideoCropper.__init__ (lines 262-265): total, never fails, no bounds
check against any source geometry (the source width/height are not even
parameters). -/
def videoCropper_init (fname fourcc : String) (x y w h : ℕ) (fps : ℚ)
    (color : Bool) : VideoCropper :=
  { fname := fname, fourcc := fourcc, dimension := (w, h), fps := fps,
    color := color, x := x, y := y, w := w, h := h }

/-- VideoCropper.write (lines 267-272): like VideoWriter.write but the
enqueued frame is frame[y:y+h, x:x+w]. -/
def videoCropper_write (c : VideoCropper) (alive : Bool)
    (queue : List PyFrame) (frame : PyFrame) : WriteOutcome PyFrame :=
  if alive then
    if queueCapacity ≤ queue.length then WriteOutcome.blockedFull
    else WriteOutcome.enq
      (queue ++ [pySlice2d frame c.y (c.y + c.h) c.x (c.x + c.w)])
  else WriteOutcome.notReady

/-- State of the video_crop.py main loop (lines 148-172): the elapsed
playback seconds, the remaining split timestamps (in seconds), the
current part number j, the frames written to the already-closed sink
groups (in order) and the frames written to the current group.  Each
sink group is represented by the list of input frames forwarded to it
(every cropper of a group receives the same frames). -/
structure CropRunState (α : Type) where
  elapsed : ℚ
  splits : List ℚ
  part : ℕ
  closed : List (List α)
  cur : List α

/-- One iteration of the for-frame loop of video_crop.py main (lines
156-172): elapsed_seconds += 1/fps; if splits remain and
elapsed_seconds >= splits[0], stop the current croppers, increment j,
build and start a fresh group, pop the split, and only then write the
frame (to the new group); otherwise write the frame to the current
group. -/
def video_crop_step (fps : ℚ) (st : CropRunState α) (frame : α) :
    CropRunState α :=
  let elapsed := st.elapsed + 1 / fps
  match st.splits with
  | [] => { st with elapsed := elapsed, cur := st.cur ++ [frame] }
  | t :: rest =>
      if t ≤ elapsed then
        { elapsed := elapsed, splits := rest, part := st.part + 1,
          closed := st.closed ++ [st.cur], cur := [frame] }
      else { st with elapsed := elapsed, cur := st.cur ++ [frame] }

/-- The whole frame loop, folded over the consumed frames. -/
def video_crop_run (fps : ℚ) (st : CropRunState α) (frames : List α) :
    CropRunState α :=
  frames.foldl (video_crop_step fps) st

/-- Loop state before the first frame (lines 142-150): j = 1,
elapsed_seconds = start.seconds, no group closed yet, nothing written. -/
def video_crop_start (α : Type) (startSeconds : ℚ) (splits : List ℚ) :
    CropRunState α :=
  { elapsed := startSeconds, splits := splits, part := 1, closed := [],
    cur := [] }

/-- Total number of frames written across all groups of a run. -/
def CropRunState.total (st : CropRunState α) : ℕ :=
  (st.closed.map List.length).sum + st.cur.length

/-- Number of leading frames that do NOT reach the split timestamp T:
frame i (0-based) is consumed with elapsed_seconds equal to
start + (i+1)/fps, and for an increasing elapsed clock the frames
strictly below T form a prefix, so this count is also the index of the
rotation boundary frame. -/
def crossCount (fps start t : ℚ) (n : ℕ) : ℕ :=
  (List.range n).countP fun i : ℕ =>
    decide (start + ((i : ℚ) + 1) * (1 / fps) < t)

/-- Python "{:02d}": zero-pad to width two. -/
def pad2 (n : ℤ) : String :=
  if 0 ≤ n ∧ n < 10 then "0" ++ toString n else toString n

/-- Three decimal digits of a number in [0, 1000). -/
def pad3ms (n : ℤ) : String :=
  if n < 10 then "00" ++ toString n
  else if n < 100 then "0" ++ toString n
  else toString n

/-- Python "{:02.3f}" on a nonnegative value with at most millisecond
precision: three fractional digits, and the requested minimum width 2 is
never reached ("0.000" is already five characters), so the 0-padding of
the integer part never happens. -/
def fmt023 (q : ℚ) : String :=
  let n := ⌊q * 1000⌋
  toString (n / 1000) ++ "." ++ pad3ms (n % 1000)

/-- The three numeric fields of TimeStamp.__str__ (lines 295-299):
hours = int(self.hours), minutes = int(self.minutes) - hours*60,
seconds = self.seconds - hours*3600 - minutes*60. -/
def timeStamp_str_fields (t : TimeStamp) : ℤ × ℤ × ℚ :=
  let hh := pyInt t.hours
  let mm := pyInt t.minutes - hh * 60
  (hh, mm, t.seconds - hh * 3600 - mm * 60)

/-- TimeStamp.__str__ (lines 295-299): "{}:{:02d}:{:02.3f}".format(...). -/
def timeStamp_str (t : TimeStamp) : String :=
  let f := timeStamp_str_fields t
  toString f.1 ++ ":" ++ pad2 f.2.1 ++ ":" ++ fmt023 f.2.2

/-- Invariant of the VideoWriter state machine: the ghost list of
accepted frames is exactly the encoded frames followed by the queued
ones (FIFO, no drop, no reorder), and the encode handle is only ever
released with an empty queue by the dying worker. -/
def videoWriterInv (s : VideoWriterState α) : Prop :=
  s.enqueued = s.written ++ s.queue ∧
    (s.released = true → s.queue = [] ∧ s.alive = false)

lemma videoWriter_inv_step {α : Type} {s s' : VideoWriterState α}
    (h : VideoWriterStep α s s') (hinv : videoWriterInv s) :
    videoWriterInv s' := by
  obtain ⟨henq, hrel⟩ := hinv
  cases h with
  | write f halive hroom =>
      refine ⟨by rw [henq, List.append_assoc], ?_⟩
      intro hrel2
      have hdead := (hrel hrel2).2
      rw [halive] at hdead
      exact absurd hdead (by simp)
  | encode f rest hq hrun =>
      refine ⟨?_, ?_⟩
      · show s.enqueued = (s.written ++ [f]) ++ rest
        rw [henq, hq, List.append_assoc]
        rfl
      · intro hrel2
        rw [hrun] at hrel2
        exact absurd hrel2 (by simp)
  | stop => exact ⟨henq, hrel⟩
  | finish hstop hempty => exact ⟨henq, fun _ => ⟨hempty, rfl⟩⟩

lemma videoWriter_inv_reach {α : Type} {s : VideoWriterState α}
    (h : VideoWriterReach α s) : videoWriterInv s := by
  induction h with
  | refl => exact ⟨rfl, fun hr => by simp [videoWriter_started] at hr⟩
  | tail hsteps hstep ih => exact videoWriter_inv_step hstep ih

/-- C1: in every reachable VideoWriter state in which the encode handle
has been released, the frames passed to the encode handle are exactly
the frames ever accepted by write(), in order: the release only happens
after the post-stop drain loop has emptied the queue, so the output
frame count equals the number of enqueued frames and no enqueued frame
is dropped. -/
theorem c1_stop_drains_everything :
    ∀ (α : Type) (s : VideoWriterState α), VideoWriterReach α s →
      s.released = true →
      s.written = s.enqueued ∧ s.written.length = s.enqueued.length ∧
        s.queue = [] := by
  intro α s hreach hrel
  obtain ⟨henq, h2⟩ := videoWriter_inv_reach hreach
  obtain ⟨hq, _⟩ := h2 hrel
  rw [henq, hq, List.append_nil]
  exact ⟨rfl, rfl, rfl⟩

/-- Witness for c1_stop_drains_everything: the concrete run
write 1, write 2, stop, encode, encode, finish reaches a released state
whose output equals its enqueued frames. -/
theorem c1_stop_drains_everything_witness :
    (⟨[], [1, 2], [1, 2], true, false, true⟩ :
        VideoWriterState ℕ).written =
      (⟨[], [1, 2], [1, 2], true, false, true⟩ :
        VideoWriterState ℕ).enqueued := by
  have h1 : VideoWriterStep ℕ ⟨[], [], [], false, true, false⟩
      ⟨[1], [], [1], false, true, false⟩ :=
    VideoWriterStep.write _ 1 rfl (by simp [queueCapacity])
  have h2 : VideoWriterStep ℕ ⟨[1], [], [1], false, true, false⟩
      ⟨[1, 2], [], [1, 2], false, true, false⟩ :=
    VideoWriterStep.write _ 2 rfl (by simp [queueCapacity])
  have h3 : VideoWriterStep ℕ ⟨[1, 2], [], [1, 2], false, true, false⟩
      ⟨[1, 2], [], [1, 2], true, true, false⟩ :=
    VideoWriterStep.stop _
  have h4 : VideoWriterStep ℕ ⟨[1, 2], [], [1, 2], true, true, false⟩
      ⟨[2], [1], [1, 2], true, true, false⟩ :=
    VideoWriterStep.encode _ 1 [2] rfl rfl
  have h5 : VideoWriterStep ℕ ⟨[2], [1], [1, 2], true, true, false⟩
      ⟨[], [1, 2], [1, 2], true, true, false⟩ :=
    VideoWriterStep.encode _ 2 [] rfl rfl
  have h6 : VideoWriterStep ℕ ⟨[], [1, 2], [1, 2], true, true, false⟩
      ⟨[], [1, 2], [1, 2], true, false, true⟩ :=
    VideoWriterStep.finish _ rfl rfl
  have hreach : VideoWriterReach ℕ ⟨[], [1, 2], [1, 2], true, false, true⟩ :=
    Relation.ReflTransGen.head h1 (Relation.ReflTransGen.head h2
      (Relation.ReflTransGen.head h3 (Relation.ReflTransGen.head h4
        (Relation.ReflTransGen.head h5
          (Relation.ReflTransGen.head h6 Relation.ReflTransGen.refl)))))
  exact (c1_stop_drains_everything ℕ _ hreach rfl).1

lemma videoStream_reader_go_eq (endFn b camPos cp : ℕ) (hb : b ≤ camPos)
    (hcp : cp < endFn) :
    videoStream_reader_go endFn b cp camPos =
      List.range' camPos (endFn - camPos) := by
  rw [videoStream_reader_go]
  rw [if_neg (by omega)]
  by_cases h2 : endFn ≤ camPos
  · rw [dif_pos h2]
    have h0 : endFn - camPos = 0 := by omega
    rw [h0, List.range'_zero]
  · rw [dif_neg h2]
    rw [if_neg (by omega)]
    have ih := videoStream_reader_go_eq endFn b (camPos + 1) camPos
      (by omega) (by omega)
    rw [ih]
    have hn : endFn - camPos = (endFn - (camPos + 1)) + 1 := by omega
    rw [hn, List.range'_succ]
    rfl
termination_by endFn - camPos
decreasing_by omega

/-- C2 (amended): a source whose window end is None stops at the
materialised end frame number, which equals the file's frame count L
(see c10_end_always_materialised); a run of the reader worker from
begin frame index b enqueues the frames at decode-handle positions
b, b+1, ..., L-1, which is exactly L - b frames — one fewer than the
frame_count - begin_index + 1 of the original claim.  With b = 1 the
run yields L - 1 frames: every frame of the file except the one at
handle position 0. -/
theorem c2_window_end_none_frame_count :
    ∀ b L : ℕ, 1 ≤ b → b ≤ L →
      videoStream_reader b L = List.range' b (L - b) ∧
      (videoStream_reader b L).length = L - b := by
  intro b L h1 hbl
  rcases Nat.lt_or_ge b L with h | h
  · have heq := videoStream_reader_go_eq L b b b le_rfl h
    rw [videoStream_reader]
    exact ⟨heq, by rw [heq, List.length_range']⟩
  · have hbL : b = L := le_antisymm hbl h
    subst hbL
    have hnil : videoStream_reader b b = [] := by
      rw [videoStream_reader, videoStream_reader_go, if_pos le_rfl]
    rw [hnil]
    simp

/-- Counterexample to C2 as stated: on a 3-frame file read from begin
frame index 1 the reader yields the frames at positions 1 and 2 — two
frames, not frame_count - begin_index + 1 = 3. -/
theorem c2_window_end_none_counterexample :
    videoStream_reader 1 3 = [1, 2] ∧
      (videoStream_reader 1 3).length ≠ 3 - 1 + 1 := by
  have h := videoStream_reader_go_eq 3 1 1 1 le_rfl (by omega)
  have heq : videoStream_reader 1 3 = [1, 2] := by
    rw [videoStream_reader, h]
    rfl
  exact ⟨heq, by rw [heq]; decide⟩

/-- Witness for c2_window_end_none_frame_count at b = 1, L = 3. -/
theorem c2_window_end_none_frame_count_witness :
    (1 : ℕ) ≤ 1 ∧ (1 : ℕ) ≤ 3 ∧ (videoStream_reader 1 3).length = 3 - 1 :=
  ⟨le_rfl, by omega,
    (c2_window_end_none_frame_count 1 3 le_rfl (by omega)).2⟩

/-- C7: for every source state, before() holds iff the current position
is strictly below the begin frame index; after() holds iff an end is set
and the current position is at or beyond the end frame index; and
in_range() is the complement of the conjunction of the two — and this is
not the same function as (not before) and (not after): a state where
exactly one of the two predicates holds separates them. -/
theorem c7_windowing_predicates :
    (∀ s : VideoStreamWindow,
      (s.before = true ↔ s.cap_position < s.beginning.frame_number) ∧
      (s.after = true ↔
        ∃ e, s.ending = some e ∧ e.frame_number ≤ s.cap_position) ∧
      s.in_range = !(s.before && s.after)) ∧
    ∃ s0 : VideoStreamWindow, s0.in_range ≠ (!s0.before && !s0.after) := by
  constructor
  · intro s
    refine ⟨by simp [VideoStreamWindow.before], ?_, rfl⟩
    cases h : s.ending with
    | none => simp [VideoStreamWindow.after, h]
    | some e => simp [VideoStreamWindow.after, h]
  · refine ⟨⟨0, ⟨⟨0, 0, 5⟩, 1, 6⟩, none⟩, ?_⟩
    decide

/-- C9: write(frame) raises WriterNotReady exactly when the worker
thread is no longer alive; while the worker is alive it never raises —
it enqueues the frame at the back of the bounded queue when there is
room, and busy-waits (blocks) while the queue is full. -/
theorem c9_write_not_ready :
    ∀ (α : Type) (queue : List α) (f : α),
      videoWriter_write false queue f = WriteOutcome.notReady ∧
      videoWriter_write true queue f ≠ WriteOutcome.notReady ∧
      (queue.length < queueCapacity →
        videoWriter_write true queue f = WriteOutcome.enq (queue ++ [f])) ∧
      (queueCapacity ≤ queue.length →
        videoWriter_write true queue f = WriteOutcome.blockedFull) := by
  intro α queue f
  refine ⟨rfl, ?_, ?_, ?_⟩
  · unfold videoWriter_write
    rw [if_pos rfl]
    split <;> simp
  · intro h
    unfold videoWriter_write
    rw [if_pos rfl, if_neg (by omega)]
  · intro h
    unfold videoWriter_write
    rw [if_pos rfl, if_pos h]

/-- Witness for c9_write_not_ready at a concrete input: an empty queue
has room, so a live writer enqueues the frame. -/
theorem c9_write_not_ready_witness :
    ([] : List ℕ).length < queueCapacity ∧
      videoWriter_write true ([] : List ℕ) 7 = WriteOutcome.enq [7] :=
  ⟨by decide, (c9_write_not_ready ℕ [] 7).2.2.1 (by decide)⟩

/-- C10: the end attribute is never None: set_end materialises an absent
end timestamp as the VideoTime of the file's total frame count and wraps
every explicit timestamp in a VideoTime, so the is-not-None test inside
after() always succeeds and after() reduces to the frame-number
comparison against a present end. -/
theorem c10_end_always_materialised :
    ∀ (length fps : ℚ),
      videoStream_set_end length fps none =
        some (frame_videotime length fps) ∧
      (frame_videotime length fps).frame_number = length ∧
      (∀ h m s, videoStream_set_end length fps (some (h, m, s)) =
        some (videoTime_of h m s fps)) ∧
      (∀ ts, (videoStream_set_end length fps ts).isSome = true) ∧
      (∀ ts cap beg,
        VideoStreamWindow.after
            ⟨cap, beg, videoStream_set_end length fps ts⟩ = true ↔
          ∃ e, videoStream_set_end length fps ts = some e ∧
            e.frame_number ≤ cap) := by
  intro length fps
  refine ⟨rfl, rfl, fun h m s => rfl, ?_, ?_⟩
  · intro ts
    cases ts with
    | none => rfl
    | some e =>
        match e with
        | (h, m, s) => rfl
  · intro ts cap beg
    have hsome : ∃ e, videoStream_set_end length fps ts = some e := by
      cases ts with
      | none => exact ⟨_, rfl⟩
      | some e =>
          match e with
          | (h, m, s) => exact ⟨_, rfl⟩
    obtain ⟨e, he⟩ := hsome
    rw [he]
    simp [VideoStreamWindow.after]

/-- C3: read() returns EndOfStream exactly in the exhausted state
(worker stopped or dead, queue empty); a nonempty queue always yields
its head frame; and once exhausted, any number of further calls keeps
returning EndOfStream without ever blocking. -/
theorem c3_read_after_exhaustion :
    ∀ (α : Type) (s : VideoStreamReadState α),
      (videoStream_exhausted s →
        videoStream_read s = ReadOutcome.endOfStream) ∧
      (videoStream_read s = ReadOutcome.endOfStream →
        videoStream_exhausted s) ∧
      (∀ f rest, s.queue = f :: rest →
        videoStream_read s = ReadOutcome.frame f
          { s with queue := rest, frame_number := s.frame_number + 1 }) ∧
      (videoStream_exhausted s →
        ∀ n, videoStream_readN s n = ReadOutcome.endOfStream) := by
  intro α s
  have hread : videoStream_exhausted s →
      videoStream_read s = ReadOutcome.endOfStream := by
    rintro ⟨hq, hstop⟩
    unfold videoStream_read
    rcases hstop with h | h <;> simp [hq, h]
  refine ⟨hread, ?_, ?_, ?_⟩
  · intro h
    unfold videoStream_read at h
    constructor
    · cases hq : s.queue with
      | nil => rfl
      | cons f rest => simp [hq] at h
    · cases hq : s.queue with
      | nil =>
          rw [hq] at h
          by_cases ha : s.alive = false
          · exact Or.inl ha
          · refine Or.inr ?_
            by_cases hs : s.stopped = true
            · exact hs
            · simp [ha, hs] at h
      | cons f rest => simp [hq] at h
  · intro f rest hq
    unfold videoStream_read
    rw [hq]
  · intro hex n
    induction n with
    | zero => exact hread hex
    | succ n ih =>
        unfold videoStream_readN
        rw [hread hex]
        exact ih

/-- Witness for c3_read_after_exhaustion: a drained source whose reader
thread has died returns EndOfStream on the sixth consecutive call. -/
theorem c3_read_after_exhaustion_witness :
    videoStream_exhausted
        (⟨[], false, false, 0⟩ : VideoStreamReadState ℕ) ∧
      videoStream_readN (⟨[], false, false, 0⟩ : VideoStreamReadState ℕ) 5 =
        ReadOutcome.endOfStream :=
  ⟨⟨rfl, Or.inl rfl⟩,
    (c3_read_after_exhaustion ℕ ⟨[], false, false, 0⟩).2.2.2
      ⟨rfl, Or.inl rfl⟩ 5⟩

/-- Counterexample to C4 as stated: with fps = 1 and idx = 1,
from_frame_index gives seconds = 1, and rebuilding the frame index with
int(seconds * fps) + 1 yields 2, not 1. -/
theorem c4_round_trip_counterexample :
    videoTime_frame_index (frame_videotime 1 1).seconds 1 = 2 ∧
      (2 : ℤ) ≠ 1 := by
  constructor
  · norm_num [videoTime_frame_index, frame_videotime, pyInt]
  · decide

/-- C4 (amended): for every fps > 0 and integer idx >= 1 (idx >= 0
suffices), converting idx to a VideoTime with frame_videotime
(seconds = idx/fps) and recomputing the frame index from that timestamp
with the VideoTime.__init__ formula int(seconds * fps) + 1 yields
idx + 1, one more than the original claim's idx: frame_videotime divides
by fps without the inverse's subtraction of 1. -/
theorem c4_round_trip_off_by_one :
    ∀ (fps : ℚ) (idx : ℕ), 0 < fps → 1 ≤ idx →
      videoTime_frame_index (frame_videotime (idx : ℚ) fps).seconds fps =
        (idx : ℤ) + 1 := by
  intro fps idx hfps _hidx
  have hne : fps ≠ 0 := ne_of_gt hfps
  have hsec : (frame_videotime (idx : ℚ) fps).seconds = (idx : ℚ) / fps := rfl
  rw [videoTime_frame_index, hsec, div_mul_cancel₀ _ hne, pyInt,
    if_pos (by positivity)]
  rw [Int.floor_natCast]

/-- Witness for c4_round_trip_off_by_one at fps = 2, idx = 3: the
rebuilt frame index is 4. -/
theorem c4_round_trip_off_by_one_witness :
    (0 : ℚ) < 2 ∧ (1 : ℕ) ≤ 3 ∧
      videoTime_frame_index (frame_videotime ((3 : ℕ) : ℚ) 2).seconds 2 =
        ((3 : ℕ) : ℤ) + 1 :=
  ⟨by norm_num, by norm_num,
    c4_round_trip_off_by_one 2 3 (by norm_num) (by norm_num)⟩

lemma pyInt_nat_add_frac (n : ℕ) (x : ℚ) (h0 : 0 ≤ x) (h1 : x < 1) :
    pyInt ((n : ℚ) + x) = n := by
  rw [pyInt, if_pos (by positivity), Int.floor_nat_add,
    Int.floor_eq_zero_iff.mpr (Set.mem_Ico.mpr ⟨h0, h1⟩)]
  ring

lemma timeStamp_str_fields_exact (h m : ℕ) (s : ℚ) (hm : m ≤ 59)
    (hs0 : 0 ≤ s) (hs1 : s < 60) :
    timeStamp_str_fields (timeStamp_of h m s) = ((h : ℤ), (m : ℤ), s) := by
  have hmq : (m : ℚ) ≤ 59 := by exact_mod_cast hm
  have hhour : pyInt (timeStamp_of h m s).hours = h := by
    have hrw : (timeStamp_of h m s).hours =
        (h : ℚ) + ((m : ℚ) / 60 + s / 3600) := by
      show (h : ℚ) + (m : ℚ) / 60 + s / 3600 =
        (h : ℚ) + ((m : ℚ) / 60 + s / 3600)
      ring
    rw [hrw]
    exact pyInt_nat_add_frac h _ (by positivity) (by linarith)
  have hminute : pyInt (timeStamp_of h m s).minutes = (h * 60 + m : ℕ) := by
    have hrw : (timeStamp_of h m s).minutes =
        ((h * 60 + m : ℕ) : ℚ) + s / 60 := by
      show (h : ℚ) * 60 + (m : ℚ) + s / 60 = ((h * 60 + m : ℕ) : ℚ) + s / 60
      push_cast
      ring
    rw [hrw]
    exact pyInt_nat_add_frac _ _ (by positivity) (by linarith)
  simp only [timeStamp_str_fields, hhour, hminute, Prod.mk.injEq]
  refine ⟨trivial, by push_cast; ring, ?_⟩
  simp only [timeStamp_of]
  push_cast
  ring

/-- Counterexample to C8 as stated: parsing the valid H:MM:SS.mmm text
1:05:05.250 (fields 1, 5, 5.25) and formatting back yields
"1:05:5.250" — the seconds field is NOT zero-padded to two digits,
because the Python format spec {:02.3f} requests minimum width 2, which
a seconds rendering (at least five characters) always exceeds. -/
theorem c8_format_counterexample :
    timeStamp_str (timeStamp_of 1 5 (21 / 4)) = "1:05:5.250" ∧
      ("1:05:5.250" : String) ≠ "1:05:05.250" := by
  have hf0 := timeStamp_str_fields_exact 1 5 (21 / 4) (by norm_num)
    (by norm_num) (by norm_num)
  have hf : timeStamp_str_fields (timeStamp_of 1 5 (21 / 4)) =
      ((1 : ℤ), (5 : ℤ), 21 / 4) := by
    norm_num at hf0
    exact hf0
  have hfloor : ⌊(21 / 4 : ℚ) * 1000⌋ = 5250 := by norm_num
  have hfmt : fmt023 (21 / 4) = "5.250" := by
    simp only [fmt023, hfloor]
    decide
  constructor
  · rw [timeStamp_str, hf]
    show toString (1 : ℤ) ++ ":" ++ pad2 5 ++ ":" ++ fmt023 (21 / 4) =
      "1:05:5.250"
    rw [hfmt]
    decide
  · decide

/-- C8 (amended): for every valid H:MM:SS.mmm input (minutes and whole
seconds at most 59, fractional part to millisecond precision), parsing
and formatting round-trips the three fields exactly — hence to
millisecond precision — and the output has the shape
H:MM:S.mmm: hours unpadded, minutes zero-padded to two digits, seconds
rendered with exactly three fractional digits but with its integer part
NOT zero-padded to two digits. -/
theorem c8_round_trip_and_format :
    ∀ (h m : ℕ) (s : ℚ), m ≤ 59 → 0 ≤ s → s < 60 →
      timeStamp_str_fields (timeStamp_of h m s) = ((h : ℤ), (m : ℤ), s) ∧
      timeStamp_str (timeStamp_of h m s) =
        toString (h : ℤ) ++ ":" ++ pad2 (m : ℤ) ++ ":" ++ fmt023 s := by
  intro h m s hm hs0 hs1
  have hf := timeStamp_str_fields_exact h m s hm hs0 hs1
  exact ⟨hf, by rw [timeStamp_str, hf]⟩

/-- Witness for c8_round_trip_and_format at 1:05:05.250. -/
theorem c8_round_trip_and_format_witness :
    (5 : ℕ) ≤ 59 ∧ (0 : ℚ) ≤ 21 / 4 ∧ (21 / 4 : ℚ) < 60 ∧
      timeStamp_str_fields (timeStamp_of ((1 : ℕ) : ℚ) ((5 : ℕ) : ℚ) (21 / 4)) =
        (((1 : ℕ) : ℤ), ((5 : ℕ) : ℤ), 21 / 4) :=
  ⟨by norm_num, by norm_num, by norm_num,
    (c8_round_trip_and_format 1 5 (21 / 4) (by norm_num) (by norm_num)
      (by norm_num)).1⟩

/-- Counterexample to C6 as stated: constructing a VideoCropper whose
rectangle (x=200, y=200, w=50, h=50) lies entirely outside a 100×100
source does not fail — the constructor takes no source geometry and
performs no validation — and a later write() does not fail either: the
Python slice silently clamps and enqueues an empty 0×0 frame. -/
theorem c6_no_validation_counterexample :
    videoCropper_init "o" "MJPG" 200 200 50 50 25 true =
      ⟨"o", "MJPG", (50, 50), 25, true, 200, 200, 50, 50⟩ ∧
    videoCropper_write (videoCropper_init "o" "MJPG" 200 200 50 50 25 true)
        true [] ⟨100, 100, fun _ _ => 7⟩ =
      WriteOutcome.enq
        [pySlice2d ⟨100, 100, fun _ _ => 7⟩ 200 250 200 250] ∧
    (pySlice2d ⟨100, 100, fun _ _ => 7⟩ 200 250 200 250).rows = 0 ∧
    (pySlice2d ⟨100, 100, fun _ _ => 7⟩ 200 250 200 250).cols = 0 := by
  refine ⟨rfl, ?_, by decide, by decide⟩
  rfl

/-- C6 (amended): the crop rectangle is never validated — construction
succeeds for every rectangle and write-time slicing silently clamps an
out-of-bounds rectangle (see the counterexample) — while for an
in-bounds rectangle the sink enqueues exactly the h×w sub-frame
frame[y:y+h, x:x+w]: for (x=10, y=10, w=50, h=50) on a 100×100 frame, a
50×50 frame whose pixel (i, j) is the source pixel (y+i, x+j). -/
theorem c6_crop_write_in_bounds :
    ∀ (fname fourcc : String) (x y w h : ℕ) (fps : ℚ) (color : Bool)
      (frame : PyFrame) (queue : List PyFrame),
      y + h ≤ frame.rows → x + w ≤ frame.cols →
      queue.length < queueCapacity →
      ∃ out : PyFrame,
        videoCropper_write (videoCropper_init fname fourcc x y w h fps color)
            true queue frame = WriteOutcome.enq (queue ++ [out]) ∧
        out.rows = h ∧ out.cols = w ∧
        ∀ i j, out.px i j = frame.px (y + i) (x + j) := by
  intro fname fourcc x y w h fps color frame queue hy hx hroom
  refine ⟨pySlice2d frame y (y + h) x (x + w), ?_, ?_, ?_, ?_⟩
  · rw [videoCropper_write, if_pos rfl, if_neg (by omega)]
    rfl
  · show min (y + h) frame.rows - min y frame.rows = h
    omega
  · show min (x + w) frame.cols - min x frame.cols = w
    omega
  · intro i j
    show frame.px (min y frame.rows + i) (min x frame.cols + j) =
      frame.px (y + i) (x + j)
    have h1 : min y frame.rows = y := by omega
    have h2 : min x frame.cols = x := by omega
    rw [h1, h2]

/-- Witness for c6_crop_write_in_bounds: rectangle (10, 10, 50, 50) on a
100×100 frame with an empty queue. -/
theorem c6_crop_write_in_bounds_witness :
    (10 : ℕ) + 50 ≤ (PyFrame.mk 100 100 fun i j => (i : ℤ) * 100 + j).rows ∧
    (10 : ℕ) + 50 ≤ (PyFrame.mk 100 100 fun i j => (i : ℤ) * 100 + j).cols ∧
    ([] : List PyFrame).length < queueCapacity ∧
    ∃ out : PyFrame,
      videoCropper_write (videoCropper_init "o" "MJPG" 10 10 50 50 25 true)
          true [] (PyFrame.mk 100 100 fun i j => (i : ℤ) * 100 + j) =
        WriteOutcome.enq ([] ++ [out]) ∧
      out.rows = 50 ∧ out.cols = 50 ∧
      ∀ i j, out.px i j =
        (PyFrame.mk 100 100 fun i j => (i : ℤ) * 100 + j).px (10 + i) (10 + j) :=
  ⟨by decide, by decide, by decide,
    c6_crop_write_in_bounds "o" "MJPG" 10 10 50 50 25 true
      (PyFrame.mk 100 100 fun i j => (i : ℤ) * 100 + j) []
      (by decide) (by decide) (by decide)⟩

lemma countP_range_downward (p : ℕ → Prop) [DecidablePred p]
    (hdc : ∀ i j : ℕ, i ≤ j → p j → p i) :
    ∀ n : ℕ,
      ((List.range n).countP fun i => decide (p i)) ≤ n ∧
      (∀ i, i < ((List.range n).countP fun i => decide (p i)) → p i) ∧
      (((List.range n).countP fun i => decide (p i)) < n →
        ¬ p ((List.range n).countP fun i => decide (p i))) := by
  intro n
  induction n with
  | zero => simp
  | succ n ih =>
      obtain ⟨hle, hall, hnot⟩ := ih
      rw [List.range_succ, List.countP_append]
      by_cases hp : p n
      · have hkn : ((List.range n).countP fun i => decide (p i)) = n := by
          have hforall : ∀ a ∈ List.range n, (fun i => decide (p i)) a = true := by
            intro a ha
            simp only [List.mem_range] at ha
            simp [hdc a n (le_of_lt ha) hp]
          have h2 := List.countP_eq_length.mpr hforall
          rw [h2, List.length_range]
        have hone : (([n] : List ℕ).countP fun i => decide (p i)) = 1 := by
          simp [hp]
        rw [hkn, hone]
        refine ⟨le_rfl, ?_, by omega⟩
        intro i hi
        rcases Nat.lt_succ_iff_lt_or_eq.mp hi with h | h
        · exact hdc i n (le_of_lt h) hp
        · subst h; exact hp
      · have hzero : (([n] : List ℕ).countP fun i => decide (p i)) = 0 := by
          simp [hp]
        rw [hzero, Nat.add_zero]
        refine ⟨Nat.le_succ_of_le hle, hall, ?_⟩
        intro _
        rcases Nat.lt_or_ge ((List.range n).countP fun i => decide (p i)) n
          with h | h
        · exact hnot h
        · have heq : ((List.range n).countP fun i => decide (p i)) = n :=
            le_antisymm hle h
          rw [heq]; exact hp

lemma crossCount_spec (fps start t : ℚ) (hfps : 0 < fps) (n : ℕ) :
    crossCount fps start t n ≤ n ∧
    (∀ i : ℕ, i < crossCount fps start t n →
      start + (i + 1) * (1 / fps) < t) ∧
    (crossCount fps start t n < n →
      ¬(start + (crossCount fps start t n + 1) * (1 / fps) < t)) := by
  have h1 : (0 : ℚ) < 1 / fps := by positivity
  have hdc : ∀ i j : ℕ, i ≤ j → start + ((j : ℚ) + 1) * (1 / fps) < t →
      start + ((i : ℚ) + 1) * (1 / fps) < t := by
    intro i j hij hj
    have hij2 : (i : ℚ) ≤ j := by exact_mod_cast hij
    nlinarith
  have hmain := countP_range_downward
    (fun i : ℕ => start + ((i : ℚ) + 1) * (1 / fps) < t) hdc n
  simp only [crossCount]
  exact hmain

lemma crossCount_zero_of_stop (fps start t : ℚ) (hfps : 0 < fps)
    (h : ¬ start + 1 / fps < t) (n : ℕ) : crossCount fps start t n = 0 := by
  rw [crossCount, List.countP_eq_zero]
  intro i _
  simp only [decide_eq_true_eq]
  intro hi
  apply h
  have h1 : (0 : ℚ) < 1 / fps := by positivity
  have h0 : (0 : ℚ) ≤ (i : ℚ) := Nat.cast_nonneg i
  nlinarith

lemma crossCount_succ_shift (fps start t : ℚ) (h : start + 1 / fps < t)
    (n : ℕ) :
    crossCount fps start t (n + 1) =
      crossCount fps (start + 1 / fps) t n + 1 := by
  rw [crossCount, crossCount, List.range_succ_eq_map, List.countP_cons,
    List.countP_map]
  have hfun : ∀ a ∈ List.range n,
      ((fun i : ℕ => decide (start + ((i : ℚ) + 1) * (1 / fps) < t)) ∘
        Nat.succ) a ↔
      (fun i : ℕ =>
        decide (start + 1 / fps + ((i : ℚ) + 1) * (1 / fps) < t)) a := by
    intro a _
    simp only [Function.comp_apply, decide_eq_true_eq]
    have harith : start + ((a : ℚ) + 1 + 1) * (1 / fps) =
        start + 1 / fps + ((a : ℚ) + 1) * (1 / fps) := by ring
    constructor
    · intro hx
      push_cast at hx
      rw [← harith]
      exact hx
    · intro hx
      push_cast
      rw [harith]
      exact hx
  rw [List.countP_congr hfun]
  have h0 : decide (start + (((0 : ℕ) : ℚ) + 1) * (1 / fps) < t) = true := by
    simp only [Nat.cast_zero, decide_eq_true_eq]
    linarith
  rw [if_pos h0]

lemma video_crop_step_total (fps : ℚ) (st : CropRunState α) (f : α) :
    (video_crop_step fps st f).total = st.total + 1 := by
  rcases st with ⟨e, splits, j, closed, cur⟩
  cases splits with
  | nil =>
      simp only [video_crop_step, CropRunState.total, List.length_append,
        List.length_cons, List.length_nil]
      omega
  | cons t rest =>
      by_cases hle : t ≤ e + 1 / fps
      · simp only [video_crop_step, if_pos hle, CropRunState.total,
          List.map_append, List.sum_append, List.map_cons, List.map_nil,
          List.sum_cons, List.sum_nil, List.length_cons, List.length_nil]
        omega
      · simp only [video_crop_step, if_neg hle, CropRunState.total,
          List.length_append, List.length_cons, List.length_nil]
        omega

lemma video_crop_run_total (fps : ℚ) :
    ∀ (frames : List α) (st : CropRunState α),
      (video_crop_run fps st frames).total = st.total + frames.length := by
  intro frames
  induction frames with
  | nil => intro st; simp [video_crop_run]
  | cons f fs ih =>
      intro st
      rw [video_crop_run, List.foldl_cons, ← video_crop_run, ih,
        video_crop_step_total]
      simp only [List.length_cons]
      omega

lemma video_crop_run_no_splits (fps : ℚ) :
    ∀ (fs : List α) (e : ℚ) (j : ℕ) (closed : List (List α))
      (cur : List α),
      video_crop_run fps ⟨e, [], j, closed, cur⟩ fs =
        ⟨e + fs.length * (1 / fps), [], j, closed, cur ++ fs⟩ := by
  intro fs
  induction fs with
  | nil =>
      intro e j closed cur
      simp [video_crop_run]
  | cons f fs ih =>
      intro e j closed cur
      rw [video_crop_run, List.foldl_cons]
      have hstep : video_crop_step fps ⟨e, [], j, closed, cur⟩ f =
          ⟨e + 1 / fps, [], j, closed, cur ++ [f]⟩ := rfl
      rw [hstep, ← video_crop_run, ih]
      simp only [CropRunState.mk.injEq, List.length_cons, List.append_assoc,
        List.singleton_append, and_true, true_and]
      push_cast
      ring

lemma video_crop_run_single (fps t : ℚ) (hfps : 0 < fps) :
    ∀ (fs : List α) (start : ℚ) (j : ℕ) (closed : List (List α))
      (cur : List α),
      (crossCount fps start t fs.length = fs.length →
        video_crop_run fps ⟨start, [t], j, closed, cur⟩ fs =
          ⟨start + fs.length * (1 / fps), [t], j, closed, cur ++ fs⟩) ∧
      (crossCount fps start t fs.length < fs.length →
        video_crop_run fps ⟨start, [t], j, closed, cur⟩ fs =
          ⟨start + fs.length * (1 / fps), [], j + 1,
            closed ++ [cur ++ fs.take (crossCount fps start t fs.length)],
            fs.drop (crossCount fps start t fs.length)⟩) := by
  intro fs
  induction fs with
  | nil =>
      intro start j closed cur
      constructor
      · intro _
        simp [video_crop_run]
      · intro h
        simp [crossCount] at h
  | cons f fs ih =>
      intro start j closed cur
      by_cases hcross : t ≤ start + 1 / fps
      · have hk : crossCount fps start t (f :: fs).length = 0 := by
          apply crossCount_zero_of_stop fps start t hfps
          intro hlt
          linarith
        have hstep : video_crop_step fps ⟨start, [t], j, closed, cur⟩ f =
            ⟨start + 1 / fps, [], j + 1, closed ++ [cur], [f]⟩ := by
          simp only [video_crop_step]
          rw [if_pos hcross]
        constructor
        · intro hkn
          rw [hk] at hkn
          simp at hkn
        · intro _
          rw [video_crop_run, List.foldl_cons, hstep, ← video_crop_run,
            video_crop_run_no_splits, hk]
          simp only [List.take_zero, List.drop_zero, List.append_nil,
            CropRunState.mk.injEq, List.length_cons, List.singleton_append,
            and_true, true_and]
          push_cast
          ring
      · have hlt : start + 1 / fps < t := not_le.mp hcross
        have hshift := crossCount_succ_shift fps start t hlt fs.length
        have hstep : video_crop_step fps ⟨start, [t], j, closed, cur⟩ f =
            ⟨start + 1 / fps, [t], j, closed, cur ++ [f]⟩ := by
          simp only [video_crop_step]
          rw [if_neg hcross]
        obtain ⟨ih1, ih2⟩ := ih (start + 1 / fps) j closed (cur ++ [f])
        constructor
        · intro hkn
          simp only [List.length_cons] at hkn
          rw [hshift] at hkn
          have hk2 : crossCount fps (start + 1 / fps) t fs.length =
              fs.length := by omega
          rw [video_crop_run, List.foldl_cons, hstep, ← video_crop_run,
            ih1 hk2]
          simp only [CropRunState.mk.injEq, List.length_cons,
            List.append_assoc, List.singleton_append, and_true, true_and]
          push_cast
          ring
        · intro hkn
          simp only [List.length_cons] at hkn
          rw [hshift] at hkn
          have hk2 : crossCount fps (start + 1 / fps) t fs.length <
              fs.length := by omega
          rw [video_crop_run, List.foldl_cons, hstep, ← video_crop_run,
            ih2 hk2]
          simp only [List.length_cons, hshift, CropRunState.mk.injEq,
            List.take_succ_cons, List.drop_succ_cons, List.append_assoc,
            List.singleton_append, and_true, true_and]
          push_cast
          ring

/-- C5: for an orchestrator run with split list [T], the total number of
frames written across all sink groups equals the number of frames
consumed (this holds for every split list); when the split is reached
within the input, the run closes group part1 with exactly the frames
consumed strictly before the split and continues as group part2 starting
with the boundary frame, where the boundary index
k = crossCount fps start T n is exactly the count of leading frames
whose accumulated elapsed_seconds (start plus 1/fps per consumed frame)
stays below T: every earlier frame is below T and the boundary frame is
the first with elapsed_seconds >= T; the two group sizes k and n - k sum
to n.  When the split is never reached, a single group part1 holds all
frames. -/
theorem c5_split_rotation :
    ∀ (α : Type) (fps start t : ℚ) (frames : List α), 0 < fps →
      (∀ splits : List ℚ,
        (video_crop_run fps (video_crop_start α start splits)
          frames).total = frames.length) ∧
      (crossCount fps start t frames.length < frames.length →
        video_crop_run fps (video_crop_start α start [t]) frames =
          ⟨start + frames.length * (1 / fps), [], 2,
            [frames.take (crossCount fps start t frames.length)],
            frames.drop (crossCount fps start t frames.length)⟩ ∧
        (frames.take (crossCount fps start t frames.length)).length +
          (frames.drop (crossCount fps start t frames.length)).length =
            frames.length) ∧
      (crossCount fps start t frames.length = frames.length →
        video_crop_run fps (video_crop_start α start [t]) frames =
          ⟨start + frames.length * (1 / fps), [t], 1, [], frames⟩) ∧
      (∀ i : ℕ, i < crossCount fps start t frames.length →
        start + (i + 1) * (1 / fps) < t) ∧
      (crossCount fps start t frames.length < frames.length →
        ¬(start + (crossCount fps start t frames.length + 1) *
          (1 / fps) < t)) := by
  intro α fps start t frames hfps
  obtain ⟨h1, h2⟩ :=
    video_crop_run_single fps t hfps frames start 1 [] []
  obtain ⟨_, hall, hstop⟩ := crossCount_spec fps start t hfps frames.length
  refine ⟨?_, ?_, ?_, hall, hstop⟩
  · intro splits
    rw [video_crop_run_total]
    simp [video_crop_start, CropRunState.total]
  · intro hkn
    constructor
    · have := h2 hkn
      rw [video_crop_start, this]
      simp
    · simp only [List.length_take, List.length_drop]
      omega
  · intro hkn
    have := h1 hkn
    rw [video_crop_start, this]
    simp

/-- Witness for c5_split_rotation: fps = 1, start = 0, split at T = 2,
three frames; every frame is written to exactly one group. -/
theorem c5_split_rotation_witness :
    (0 : ℚ) < 1 ∧
      (video_crop_run 1 (video_crop_start ℕ 0 [2]) [10, 20, 30]).total =
        ([10, 20, 30] : List ℕ).length :=
  ⟨by norm_num,
    (c5_split_rotation ℕ 1 0 2 [10, 20, 30] (by norm_num)).1 [2]⟩

end Blunt
